import Mathlib

/-!
Verification of `src/patches.py` (Revanced Patches module).

The Python module is embedded shallowly:

* Python exceptions become an explicit `PyError` sum returned through `Except`.
* The dynamic per-app attributes created by `fetch_patches`
  (`setattr(self, app_name, [])` / `getattr`) become an association list
  `Buckets` from attribute name to the list of projected patch dicts;
  `getattr` on a missing attribute is an `AttributeError`.
* Python string comparison (`<` / `>`) is lexicographic by code point, matched
  here by the lexicographic order on `String`.
* The single file read of `PatchLoader.load_patches` is modelled by a function
  from file names to a `FileResult`: the file may be missing (`open` raises
  `FileNotFoundError`), present but not valid JSON (`json.load` raises
  `json.JSONDecodeError`), or parsed to a value.
-/

namespace RevancedPatches

/-- The exceptions that can escape the module: `AppNotFound` and
`PatchesJsonLoadFailed` from `src/exceptions.py`, plus the builtin Python
`AttributeError` (from `getattr` on a missing attribute) and
`json.JSONDecodeError` (from `json.load` on malformed input). -/
inductive PyError where
  | AppNotFound (msg : String)
  | AttributeError (attr : String)
  | TypeError (attr : String)
  | PatchesJsonLoadFailed (msg : String) (file_name : String)
  | JSONDecodeError (file_name : String)
deriving DecidableEq, Repr

/-- One element of a patch's `compatiblePackages` list in the manifest:
`{"name": <package id>, "versions": [<version strings>]}`. -/
structure CompatiblePackage where
  name : String
  versions : List String
deriving DecidableEq, Repr

/-- One patch descriptor of the JSON manifest: `name`, `description` and the
ordered `compatiblePackages` list. -/
structure PatchDescriptor where
  name : String
  description : String
  compatiblePackages : List CompatiblePackage
deriving DecidableEq, Repr

/-- The dict appended to a bucket by `fetch_patches`:
`{"name": .., "description": .., "app": .., "version": ..}`. -/
structure ProjectedPatch where
  name : String
  description : String
  app : String
  version : String
deriving DecidableEq, Repr

/-- `Patches._revanced_app_ids`: the fixed package-id → short-name table,
in source order (Python dicts iterate in insertion order). -/
def _revanced_app_ids : List (String × String) :=
  [ ("com.reddit.frontpage", "reddit"),
    ("com.ss.android.ugc.trill", "tiktok"),
    ("com.twitter.android", "twitter"),
    ("de.dwd.warnapp", "warnwetter"),
    ("com.spotify.music", "spotify"),
    ("com.awedea.nyx", "nyx-music-player"),
    ("ginlemon.iconpackstudio", "icon_pack_studio"),
    ("com.ticktick.task", "ticktick"),
    ("tv.twitch.android.app", "twitch"),
    ("com.myprog.hexedit", "hex-editor"),
    ("co.windyapp.android", "windy"),
    ("org.totschnig.myexpenses", "my-expenses"),
    ("com.backdrops.wallpapers", "backdrops"),
    ("com.ithebk.expensemanager", "expensemanager"),
    ("net.dinglisch.android.taskerm", "tasker"),
    ("net.binarymode.android.irplus", "irplus"),
    ("com.vsco.cam", "vsco"),
    ("com.zombodroid.MemeGenerator", "meme-generator-free"),
    ("com.teslacoilsw.launcher", "nova_launcher"),
    ("eu.faircode.netguard", "netguard"),
    ("com.instagram.android", "instagram"),
    ("com.nis.app", "inshorts"),
    ("com.facebook.orca", "messenger"),
    ("com.google.android.apps.recorder", "grecorder"),
    ("tv.trakt.trakt", "trakt"),
    ("com.candylink.openvpn", "candyvpn"),
    ("com.sony.songpal.mdr", "sonyheadphone"),
    ("com.dci.dev.androidtwelvewidgets", "androidtwelvewidgets"),
    ("io.yuka.android", "yuka"),
    ("free.reddit.news", "relay"),
    ("com.rubenmayayo.reddit", "boost"),
    ("com.andrewshu.android.reddit", "rif"),
    ("com.laurencedawson.reddit_sync", "sync"),
    ("ml.docilealligator.infinityforreddit", "infinity"),
    ("me.ccrama.redditslide", "slide"),
    ("com.onelouder.baconreader", "bacon"),
    ("com.google.android.youtube", "youtube"),
    ("com.google.android.apps.youtube.music", "youtube_music"),
    ("com.mgoogle.android.gms", "microg"),
    ("jp.pxv.android", "pixiv") ]

/-- `Patches.revanced_app_ids`: package id → (short name, `"_" + short name`),
the second component being the bucket attribute name. -/
def revanced_app_ids : List (String × String × String) :=
  _revanced_app_ids.map (fun kv => (kv.1, kv.2, "_" ++ kv.2))

/-- `Patches.support_app()`: returns `_revanced_app_ids` itself. -/
def support_app : List (String × String) :=
  _revanced_app_ids

/-- The `for package, app_tuple in Patches.revanced_app_ids.items()` scan of
`get_package_name`: return the first package whose short name matches, else
raise `AppNotFound`. -/
def get_package_name_aux (app : String) :
    List (String × String × String) → Except PyError String
  | [] => .error (.AppNotFound ("App " ++ app ++ " not supported yet."))
  | (package, app_tuple) :: rest =>
    if app_tuple.1 = app then .ok package else get_package_name_aux app rest

/-- `Patches.get_package_name`. -/
def get_package_name (app : String) : Except PyError String :=
  get_package_name_aux app revanced_app_ids

/-- The per-app patch attributes of a `Patches` instance: an association list
attribute-name → list of projected patch dicts. -/
abbrev Buckets := List (String × List ProjectedPatch)

/-- Python `dict.get` on a dict built from an association list: with duplicate
keys the later binding wins, hence the lookup on the reversed list. -/
def dictGet (l : List (String × String)) (k : String) : Option String :=
  List.lookup k l.reverse

/-- The bucket attributes created at the top of `fetch_patches`: one empty
list per `revanced_app_ids[x][1]`, then `universal_patch`. -/
def initBuckets : Buckets :=
  revanced_app_ids.map (fun kv => (kv.2.2, [])) ++ [("universal_patch", [])]

/-- `getattr(self, key).append(p)`: append `p` to the bucket stored under
attribute `key` (every bucket with that name, were there several). -/
def appendTo (bs : Buckets) (key : String) (p : ProjectedPatch) : Buckets :=
  bs.map (fun kv => if kv.1 = key then (kv.1, kv.2 ++ [p]) else kv)

/-- One iteration of the inner loop of `fetch_patches`: for a
`(compatible_package, version)` pair, append a projected dict to that
package's bucket if the package is registered, else do nothing.  The dict's
`version` is `version[-1] if version else "all"`. -/
def processCompatiblePackage (patch : PatchDescriptor) (bs : Buckets)
    (cp : CompatiblePackage) : Buckets :=
  match List.lookup cp.name revanced_app_ids with
  | some app_tuple =>
    appendTo bs app_tuple.2
      { name := patch.name, description := patch.description, app := cp.name,
        version := match cp.versions.getLast? with
                   | some v => v
                   | none => "all" }
  | none => bs

/-- One iteration of the outer loop of `fetch_patches`: if the patch has no
compatible packages append a universal projection, then run the inner loop
over `compatiblePackages` (which is a no-op when that list is empty). -/
def processPatch (bs : Buckets) (patch : PatchDescriptor) : Buckets :=
  let bs1 :=
    if patch.compatiblePackages.isEmpty then
      appendTo bs "universal_patch"
        { name := patch.name, description := patch.description,
          app := "universal", version := "all" }
    else bs
  patch.compatiblePackages.foldl (processCompatiblePackage patch) bs1

/-- The `len()` view of a Python object: dicts and other sized values
have a length, while functions and methods make `len` raise `TypeError`. -/
inductive PyLen where
  | sized (n : Nat)
  | unsized
deriving DecidableEq, Repr

/-- The attributes bound in the body of `class Patches`, which
`getattr(self, name)` falls back to when `name` is not an instance
attribute: the two 40-entry dict constants and the functions defined in
the class body.  The interpreter adds further inherited attributes
(`__doc__`, `__module__`, dunder methods, ...); since that set is
interpreter-defined, `fetch_patches` takes the complete fallback table as
a parameter, and this list is the part fixed by the class body itself. -/
def patchesClassAttrs : List (String × PyLen) :=
  [("_revanced_app_ids", .sized 40),
   ("revanced_app_ids", .sized 40),
   ("get_package_name", .unsized),
   ("support_app", .unsized),
   ("fetch_patches", .unsized),
   ("__init__", .unsized),
   ("get", .unsized),
   ("include_exclude_patch", .unsized),
   ("get_app_configs", .unsized)]

/-- `Patches.fetch_patches` after the manifest has been loaded: build all
buckets from the patch list, then read `getattr(self, f"_{app.app_name}")`
for the per-app patch count.  Python attribute lookup checks the instance
attributes (the buckets) first, then falls back to the class attributes
(`class_attrs`, a table containing at least `patchesClassAttrs`); only
when both miss is `AttributeError` raised, and `len` of an attribute
without a length raises `TypeError`.  Returns the buckets and the count
assigned to `app.no_of_patches`. -/
def fetch_patches (class_attrs : List (String × PyLen))
    (patches : List PatchDescriptor) (app_name : String) :
    Except PyError (Buckets × Nat) :=
  match List.lookup ("_" ++ app_name) (patches.foldl processPatch initBuckets) with
  | some l => .ok (patches.foldl processPatch initBuckets, l.length)
  | none =>
    match List.lookup ("_" ++ app_name) class_attrs with
    | some (.sized n) => .ok (patches.foldl processPatch initBuckets, n)
    | some .unsized => .error (.TypeError ("_" ++ app_name))
    | none => .error (.AttributeError ("_" ++ app_name))

/-- The generator-with-default of `Patches.get`:
`version = "latest"; version = next(i["version"] for i in patches if i["version"] != "all")`
with `StopIteration` suppressed. -/
def firstNonAll (patches : List ProjectedPatch) : String :=
  match patches.find? (fun i => i.version != "all") with
  | some i => i.version
  | none => "latest"

/-- The `app_names` dict of `Patches.get`: short name → bucket attribute
name, rebuilt from `revanced_app_ids` on every call. -/
def app_names : List (String × String) :=
  revanced_app_ids.map (fun kv => (kv.2.1, kv.2.2))

/-- `Patches.get`: resolve the short name through `app_names` (the walrus
`if not (app_name := app_names.get(app))` treats both a missing key and an
empty string as failure), read the bucket attribute, and pair the bucket
with its first non-"all" version (default "latest"). -/
def get (bs : Buckets) (app : String) :
    Except PyError (List ProjectedPatch × String) :=
  match dictGet app_names app with
  | none => .error (.AppNotFound ("App " ++ app ++ " not supported yet."))
  | some app_name =>
    if app_name = "" then
      .error (.AppNotFound ("App " ++ app ++ " not supported yet."))
    else
      match List.lookup app_name bs with
      | none => .error (.AttributeError app_name)
      | some patches => .ok (patches, firstNonAll patches)

/-- Lexicographic comparison of character lists by code point: a strict
prefix is smaller, otherwise the first differing position decides. -/
def pyCharListLt : List Char → List Char → Bool
  | [], [] => false
  | [], _ :: _ => true
  | _ :: _, [] => false
  | a :: as, b :: bs =>
    if a.toNat < b.toNat then true
    else if b.toNat < a.toNat then false
    else pyCharListLt as bs

/-- Python string `<`: lexicographic comparison by code point. -/
def pyLt (a b : String) : Bool := pyCharListLt a.data b.data

/-- `Patches.get_app_configs`, with the mutation of the `APP` object made
explicit: returns `(total_patches, effective version, experimental flag)`,
the last two being the arguments of `app.set_recommended_version`.
`app.app_version` is the optional requested version; `if app.app_version:`
is Python truthiness, so `none` and the empty string both mean "no request". -/
def get_app_configs (bs : Buckets) (app_name : String)
    (app_version : Option String) :
    Except PyError (List ProjectedPatch × String × Bool) :=
  match get bs app_name with
  | .error e => .error e
  | .ok (total_patches, recommended_version) =>
    match app_version with
    | some v =>
      if v = "" then
        .ok (total_patches, recommended_version, false)
      else
        let experiment : Bool :=
          (v == "latest") || pyLt recommended_version v ||
            pyLt v recommended_version
        .ok (total_patches, v, experiment)
    | none => .ok (total_patches, recommended_version, false)

/-- A call on the external parser object in `include_exclude_patch`. -/
inductive EmitCall where
  | incl (name : String)
  | excl (name : String)
deriving DecidableEq, Repr

/-- Python `==` between a `str` and a patch dict: operands of different
types compare unequal, so this is constantly `false`. -/
def pyStrEqPatchDict (_s : String) (_p : ProjectedPatch) : Bool := false

/-- Python `in` on a list of patch dicts with a string on the left:
membership via `==` against each element. -/
def pyStrInPatchList (s : String) (l : List ProjectedPatch) : Bool :=
  l.any (fun p => pyStrEqPatchDict s p)

/-- `Patches.include_exclude_patch`, with the parser calls recorded as a
trace: for each bucket patch, `include` of the normalized name
(lower-cased, spaces to hyphens) unless it is in `app.exclude_request`, in
which case `exclude`; then for each raw name of `app.include_request`,
`include` it unless it is `in` the `universal_patch` list of dicts. -/
def include_exclude_patch (universal_patch : List ProjectedPatch)
    (exclude_request include_request : List String)
    (patches : List ProjectedPatch) : List EmitCall :=
  let calls := patches.foldl
    (fun acc patch =>
      let normalized_patch := (patch.name.toLower).replace " " "-"
      acc ++ (if !(exclude_request.contains normalized_patch) then
                [EmitCall.incl normalized_patch]
              else
                [EmitCall.excl normalized_patch])) []
  include_request.foldl
    (fun acc normalized_patch =>
      acc ++ (if !(pyStrInPatchList normalized_patch universal_patch) then
                [EmitCall.incl normalized_patch]
              else [])) calls

/-- The result of the one file read of `load_patches`: the file may be
missing, present but not parseable as JSON, or parsed to a value. -/
inductive FileResult (α : Type) where
  | missing
  | malformed
  | parsed (value : α)
deriving DecidableEq, Repr

/-- `PatchLoader.load_patches` over an abstract file system `fs`: only
`FileNotFoundError` is caught and re-raised as
`PatchesJsonLoadFailed("File not found", file_name)`; a `json.load` failure
propagates as the uncaught `json.JSONDecodeError`. -/
def load_patches (fs : String → FileResult (List PatchDescriptor))
    (file_name : String) : Except PyError (List PatchDescriptor) :=
  match fs file_name with
  | .missing => .error (.PatchesJsonLoadFailed "File not found" file_name)
  | .malformed => .error (.JSONDecodeError file_name)
  | .parsed v => .ok v

/-- Recognizer for the `PatchesJsonLoadFailed` error kind. -/
def isPatchesJsonLoadFailed : PyError → Bool
  | .PatchesJsonLoadFailed _ _ => true
  | _ => false

/-! ### Concrete sample inputs -/

/-- A spotify bucket whose first entry has version "all" and whose second
has version "1.1". -/
def allThenVersionBucket : List ProjectedPatch :=
  [⟨"U", "du", "com.spotify.music", "all"⟩,
   ⟨"B", "d2", "com.spotify.music", "1.1"⟩]

/-- A bucket state carrying `allThenVersionBucket` under `_spotify`. -/
def allThenVersionState : Buckets := [("_spotify", allThenVersionBucket)]

/-- A patch compatible with spotify at versions ["1.0", "2.0"]. -/
def spotifyPatch : PatchDescriptor :=
  ⟨"B", "d2", [⟨"com.spotify.music", ["1.0", "2.0"]⟩]⟩

/-- The compatible-package entry of `spotifyPatch`. -/
def spotifyCompatible : CompatiblePackage := ⟨"com.spotify.music", ["1.0", "2.0"]⟩

/-- A state with an empty spotify bucket. -/
def emptySpotifyState : Buckets := [("_spotify", [])]

/-- A patch with no compatible packages. -/
def universalOnlyPatch : PatchDescriptor := ⟨"A", "d", []⟩

/-- A state with an empty spotify bucket and an empty universal bucket. -/
def twoBucketState : Buckets := [("_spotify", []), ("universal_patch", [])]

/-- A spotify bucket with a single entry at version "1.0". -/
def equalVersionBucket : List ProjectedPatch :=
  [⟨"B", "d2", "com.spotify.music", "1.0"⟩]

/-- A bucket state carrying `equalVersionBucket` under `_spotify`. -/
def equalVersionState : Buckets := [("_spotify", equalVersionBucket)]

/-- A file system on which every open raises `FileNotFoundError`. -/
def missingFs : String → FileResult (List PatchDescriptor) := fun _ => .missing

/-- A file system on which every file exists but `json.load` fails. -/
def malformedFs : String → FileResult (List PatchDescriptor) :=
  fun _ => .malformed

instance {ε α : Type} [DecidableEq ε] [DecidableEq α] : DecidableEq (Except ε α)
  | .ok a, .ok b => decidable_of_iff (a = b) (by simp)
  | .ok _, .error _ => isFalse (by simp)
  | .error _, .ok _ => isFalse (by simp)
  | .error e, .error f => decidable_of_iff (e = f) (by simp)

/-! ## Helper lemmas -/

theorem lookup_eq_none_of_forall_ne {β : Type} (k : String)
    (l : List (String × β)) (h : ∀ pr ∈ l, pr.1 ≠ k) :
    List.lookup k l = none := by
  induction l with
  | nil => rfl
  | cons a rest ih =>
    obtain ⟨a1, a2⟩ := a
    have ha : a1 ≠ k := h (a1, a2) (List.mem_cons_self _ rest)
    have hk : (k == a1) = false := by
      simp [beq_iff_eq]
      exact fun he => ha he.symm
    rw [List.lookup_cons, hk]
    exact ih fun x hx => h x (List.mem_cons_of_mem _ hx)

theorem lookup_appendTo (key k : String) (p : ProjectedPatch) (bs : Buckets) :
    List.lookup k (appendTo bs key p) =
      (List.lookup k bs).map (fun l => if key = k then l ++ [p] else l) := by
  induction bs with
  | nil => simp [appendTo]
  | cons kv rest ih =>
    obtain ⟨a1, a2⟩ := kv
    have hstep : appendTo ((a1, a2) :: rest) key p =
        (if a1 = key then (a1, a2 ++ [p]) else (a1, a2)) :: appendTo rest key p := by
      simp [appendTo]
    by_cases h1 : a1 = key
    · rw [hstep, if_pos h1, List.lookup_cons, List.lookup_cons]
      cases hb : (k == a1) with
      | false => simpa using ih
      | true =>
        have hk2 : k = a1 := beq_iff_eq.1 hb
        have hkey : key = k := (hk2.trans h1).symm
        simp [hkey]
    · rw [hstep, if_neg h1, List.lookup_cons, List.lookup_cons]
      cases hb : (k == a1) with
      | false => simpa using ih
      | true =>
        have hk2 : k = a1 := beq_iff_eq.1 hb
        have hkey : ¬ key = k := fun he => h1 ((he.trans hk2).symm)
        simp [hkey]

theorem lookup_appendTo_none (key k : String) (p : ProjectedPatch)
    (bs : Buckets) (h : List.lookup k bs = none) :
    List.lookup k (appendTo bs key p) = none := by
  rw [lookup_appendTo, h]
  rfl

theorem lookup_processCompatiblePackage_none (patch : PatchDescriptor)
    (cp : CompatiblePackage) (k : String) (bs : Buckets)
    (h : List.lookup k bs = none) :
    List.lookup k (processCompatiblePackage patch bs cp) = none := by
  unfold processCompatiblePackage
  cases List.lookup cp.name revanced_app_ids with
  | none => exact h
  | some t => exact lookup_appendTo_none _ _ _ _ h

theorem lookup_foldl_processCompatiblePackage_none (patch : PatchDescriptor)
    (k : String) (cps : List CompatiblePackage) (bs : Buckets)
    (h : List.lookup k bs = none) :
    List.lookup k (cps.foldl (processCompatiblePackage patch) bs) = none := by
  induction cps generalizing bs with
  | nil => exact h
  | cons cp rest ih =>
    exact ih _ (lookup_processCompatiblePackage_none patch cp k bs h)

theorem lookup_processPatch_none (patch : PatchDescriptor) (k : String)
    (bs : Buckets) (h : List.lookup k bs = none) :
    List.lookup k (processPatch bs patch) = none := by
  unfold processPatch
  apply lookup_foldl_processCompatiblePackage_none
  by_cases he : patch.compatiblePackages.isEmpty
  · simp only [he, if_true]
    exact lookup_appendTo_none _ _ _ _ h
  · simp only [he, if_false]
    exact h

theorem lookup_foldl_processPatch_none (k : String)
    (patches : List PatchDescriptor) (bs : Buckets)
    (h : List.lookup k bs = none) :
    List.lookup k (patches.foldl processPatch bs) = none := by
  induction patches generalizing bs with
  | nil => exact h
  | cons patch rest ih => exact ih _ (lookup_processPatch_none patch k bs h)

theorem underscore_append_inj {a b : String} (h : "_" ++ a = "_" ++ b) :
    a = b := by
  have h2 := congrArg String.data h
  simp [String.data_append] at h2
  exact String.ext h2

theorem underscore_append_ne_universal (a : String) :
    "_" ++ a ≠ "universal_patch" := by
  intro h
  have h2 := congrArg String.data h
  simp [String.data_append] at h2

theorem initBuckets_eq :
    initBuckets =
      _revanced_app_ids.map (fun kv => ("_" ++ kv.2, ([] : List ProjectedPatch)))
        ++ [("universal_patch", [])] := by
  simp [initBuckets, revanced_app_ids, List.map_map]

theorem lookup_initBuckets_unregistered (app_name : String)
    (h : ∀ pr ∈ _revanced_app_ids, pr.2 ≠ app_name) :
    List.lookup ("_" ++ app_name) initBuckets = none := by
  apply lookup_eq_none_of_forall_ne
  intro pr hpr
  rw [initBuckets_eq] at hpr
  rcases List.mem_append.1 hpr with hm | hm
  · obtain ⟨kv, hkv, hmap⟩ := List.mem_map.1 hm
    intro he
    rw [← hmap] at he
    simp only at he
    exact h kv hkv (underscore_append_inj he)
  · have hpr2 : pr = ("universal_patch", ([] : List ProjectedPatch)) := by
      simpa using hm
    rw [hpr2]
    intro he
    exact underscore_append_ne_universal app_name he.symm

theorem app_names_eq :
    app_names = _revanced_app_ids.map (fun kv => (kv.2, "_" ++ kv.2)) := by
  simp [app_names, revanced_app_ids, List.map_map]

theorem get_package_name_aux_not_found (app : String)
    (l : List (String × String × String)) (h : ∀ pr ∈ l, pr.2.1 ≠ app) :
    get_package_name_aux app l =
      Except.error (.AppNotFound ("App " ++ app ++ " not supported yet.")) := by
  induction l with
  | nil => rfl
  | cons a rest ih =>
    obtain ⟨pkg, tup⟩ := a
    have ha : tup.1 ≠ app := h (pkg, tup) (List.mem_cons_self _ rest)
    simp only [get_package_name_aux]
    rw [if_neg ha]
    exact ih fun x hx => h x (List.mem_cons_of_mem _ hx)

theorem dictGet_app_names_unregistered (app : String)
    (h : ∀ pr ∈ _revanced_app_ids, pr.2 ≠ app) :
    dictGet app_names app = none := by
  unfold dictGet
  apply lookup_eq_none_of_forall_ne
  intro pr hpr
  rw [List.mem_reverse, app_names_eq] at hpr
  obtain ⟨kv, hkv, hmap⟩ := List.mem_map.1 hpr
  intro he
  rw [← hmap] at he
  simp only at he
  exact h kv hkv he

theorem firstNonAll_all (l : List ProjectedPatch)
    (h : ∀ p ∈ l, p.version = "all") : firstNonAll l = "latest" := by
  unfold firstNonAll
  have hf : List.find? (fun i => i.version != "all") l = none := by
    rw [List.find?_eq_none]
    intro x hx
    simp [h x hx]
  rw [hf]

theorem firstNonAll_first (l : List ProjectedPatch) (i : Nat) (hi : i < l.length)
    (hbefore : ∀ j, (hj : j < l.length) → j < i → (l.get ⟨j, hj⟩).version = "all")
    (hne : (l.get ⟨i, hi⟩).version ≠ "all") :
    firstNonAll l = (l.get ⟨i, hi⟩).version := by
  induction l generalizing i with
  | nil => exact absurd hi (by simp)
  | cons a rest ih =>
    cases i with
    | zero =>
      have ha : (a.version != "all") = true := by
        simpa using hne
      unfold firstNonAll
      simp [List.find?, ha]
    | succ n =>
      have ha : a.version = "all" :=
        hbefore 0 (by simp) (Nat.succ_pos n)
      have ha2 : (a.version != "all") = false := by simp [ha]
      have hrest := ih n (Nat.lt_of_succ_lt_succ hi)
        (fun j hj hlt =>
          hbefore (j + 1) (by simpa using Nat.succ_lt_succ hj)
            (Nat.succ_lt_succ hlt))
        (by simpa using hne)
      unfold firstNonAll at hrest ⊢
      simp only [List.find?, ha2]
      simpa using hrest

theorem get_ok_version (bs : Buckets) (app : String) (l : List ProjectedPatch)
    (v : String) (hget : get bs app = Except.ok (l, v)) :
    v = firstNonAll l := by
  unfold get at hget
  cases hdg : dictGet app_names app with
  | none => rw [hdg] at hget; exact absurd hget (by simp)
  | some app_name =>
    simp only [hdg] at hget
    by_cases he : app_name = ""
    · rw [if_pos he] at hget; exact absurd hget (by simp)
    · rw [if_neg he] at hget
      cases hb : List.lookup app_name bs with
      | none =>
        simp only [hb] at hget
        exact absurd hget (by simp)
      | some patches =>
        simp only [hb] at hget
        have hinj : patches = l ∧ firstNonAll patches = v := by
          simpa using hget
        rw [← hinj.1]
        exact hinj.2.symm

theorem foldl_append_eq_flatten {α β : Type} (f : α → List β)
    (l : List α) (init : List β) :
    l.foldl (fun acc x => acc ++ f x) init = init ++ (l.map f).flatten := by
  induction l generalizing init with
  | nil => simp
  | cons a rest ih => simp [ih, List.append_assoc]

theorem flatten_map_ite_singleton {α β : Type} (c : α → Bool) (f g : α → β)
    (l : List α) :
    (l.map (fun x => if c x then [f x] else [g x])).flatten =
      l.map (fun x => if c x then f x else g x) := by
  induction l with
  | nil => rfl
  | cons a rest ih => cases hc : c a <;> simp [hc, ih]

theorem flatten_map_ite_keep {α β : Type} (c : α → Bool) (g : α → β)
    (l : List α) :
    (l.map (fun x => if c x then [g x] else ([] : List β))).flatten =
      (l.filter c).map g := by
  induction l with
  | nil => rfl
  | cons a rest ih =>
    cases hc : c a <;> simp [List.filter_cons, hc, ih]

theorem ite_not_swap {β : Type} (b : Bool) (x y : β) :
    (if !b then x else y) = if b then y else x := by
  cases b <;> rfl

theorem pyCharListLt_irrefl (l : List Char) : pyCharListLt l l = false := by
  induction l with
  | nil => rfl
  | cons a as ih => simp [pyCharListLt, ih]

/-! ## Claim theorems -/

/-- C9: for every package id registered in the app table, applying
`get_package_name` to the short name that `support_app` maps it to returns
that package id. -/
theorem support_app_get_package_name_roundtrip :
    ∀ pr ∈ support_app, get_package_name pr.2 = Except.ok pr.1 := by
  decide

/-- Witness for C9: the roundtrip at the reddit entry. -/
theorem support_app_get_package_name_roundtrip_witness :
    get_package_name "reddit" = Except.ok "com.reddit.frontpage" :=
  support_app_get_package_name_roundtrip ("com.reddit.frontpage", "reddit")
    (by decide)

/-- C8: a string that equals no registry entry's short name makes both
`get_package_name` and `get` fail with `AppNotFound`. -/
theorem unregistered_short_name_app_not_found (bs : Buckets) (app : String)
    (h : ∀ pr ∈ _revanced_app_ids, pr.2 ≠ app) :
    get_package_name app =
      Except.error
        (PyError.AppNotFound ("App " ++ app ++ " not supported yet.")) ∧
    get bs app =
      Except.error
        (PyError.AppNotFound ("App " ++ app ++ " not supported yet.")) := by
  constructor
  · unfold get_package_name
    apply get_package_name_aux_not_found
    intro pr hpr
    rw [revanced_app_ids] at hpr
    obtain ⟨kv, hkv, hmap⟩ := List.mem_map.1 hpr
    rw [← hmap]
    exact h kv hkv
  · unfold get
    rw [dictGet_app_names_unregistered app h]

/-- Witness for C8 at the string "frontpage" (a package-id fragment, not a
short name) and the empty bucket state. -/
theorem unregistered_short_name_app_not_found_witness :
    get_package_name "frontpage" =
      Except.error
        (PyError.AppNotFound ("App " ++ "frontpage" ++ " not supported yet.")) ∧
    get [] "frontpage" =
      Except.error
        (PyError.AppNotFound ("App " ++ "frontpage" ++ " not supported yet.")) :=
  unregistered_short_name_app_not_found [] "frontpage" (by decide)

/-- C10 counterexample: "revanced_app_ids" is no registered short name,
yet `fetch_patches` raises nothing there: `getattr(self,
"_revanced_app_ids")` misses the instance attributes but falls back to
the 40-entry class dict `_revanced_app_ids`, so the run succeeds with
patch count 40 instead of failing with `AttributeError`. -/
theorem fetch_patches_class_attr_fallback_counterexample :
    (_revanced_app_ids.all (fun pr => pr.2 != "revanced_app_ids")) = true ∧
    fetch_patches patchesClassAttrs [] "revanced_app_ids" =
      Except.ok (initBuckets, 40) := by
  refine ⟨by decide, by rfl⟩

/-- C10 amended: for every manifest and every class-attribute fallback
table, when the target app name is not a registered short name and
`"_" ++ app_name` is not a class attribute either, `fetch_patches` fails
with `AttributeError` on the `getattr(self, f"_{app.app_name}")`
patch-count read — not `AppNotFound` — even though the buckets were
already populated; when `"_" ++ app_name` does name a class attribute the
fallback finds it and no `AttributeError` is raised. -/
theorem fetch_patches_unregistered_app_attribute_error
    (class_attrs : List (String × PyLen))
    (patches : List PatchDescriptor) (app_name : String)
    (hshort : ∀ pr ∈ _revanced_app_ids, pr.2 ≠ app_name)
    (hclass : ∀ pr ∈ class_attrs, pr.1 ≠ "_" ++ app_name) :
    fetch_patches class_attrs patches app_name =
      Except.error (PyError.AttributeError ("_" ++ app_name)) := by
  unfold fetch_patches
  have h1 : List.lookup ("_" ++ app_name)
      (patches.foldl processPatch initBuckets) = none :=
    lookup_foldl_processPatch_none _ _ _
      (lookup_initBuckets_unregistered app_name hshort)
  have h2 : List.lookup ("_" ++ app_name) class_attrs = none :=
    lookup_eq_none_of_forall_ne _ _ hclass
  simp only [h1, h2]

/-- Witness for C10 amended: a one-patch manifest, the class-body
attribute table, and the app name "frontpage", for which neither an
instance nor a class attribute exists. -/
theorem fetch_patches_unregistered_app_attribute_error_witness :
    fetch_patches patchesClassAttrs [⟨"A", "d", []⟩] "frontpage" =
      Except.error (PyError.AttributeError ("_" ++ "frontpage")) :=
  fetch_patches_unregistered_app_attribute_error patchesClassAttrs
    [⟨"A", "d", []⟩] "frontpage" (by decide) (by decide)

/-- C4: the version returned by `get` is the version of the first bucket
entry whose version is not "all"; when the bucket is empty or every entry
has version "all", it is the literal "latest". -/
theorem get_recommended_version (bs : Buckets) (app : String)
    (l : List ProjectedPatch) (v : String)
    (hget : get bs app = Except.ok (l, v)) :
    ((∀ p ∈ l, p.version = "all") → v = "latest") ∧
    (∀ i, (hi : i < l.length) →
      (∀ j, (hj : j < l.length) → j < i → (l.get ⟨j, hj⟩).version = "all") →
      (l.get ⟨i, hi⟩).version ≠ "all" →
      v = (l.get ⟨i, hi⟩).version) := by
  have hv := get_ok_version bs app l v hget
  constructor
  · intro hall
    rw [hv]
    exact firstNonAll_all l hall
  · intro i hi hb hne
    rw [hv]
    exact firstNonAll_first l i hi hb hne

/-- Witness for C4: on `allThenVersionState`, the "all"-version head entry
is skipped and the second entry's version "1.1" is returned. -/
theorem get_recommended_version_witness :
    get allThenVersionState "spotify" =
      Except.ok (allThenVersionBucket, "1.1") ∧
    "1.1" = (allThenVersionBucket.get ⟨1, Nat.one_lt_two⟩).version := by
  refine ⟨by rfl, ?_⟩
  exact (get_recommended_version allThenVersionState "spotify"
      allThenVersionBucket "1.1" (by rfl)).2 1 Nat.one_lt_two
    (by
      intro j hj hlt
      interval_cases j
      rfl)
    (by decide)

/-- C6: a patch whose `compatiblePackages` is empty is projected exactly
once, into the universal bucket with app "universal" and version "all";
every other bucket is left unchanged. -/
theorem no_compatible_packages_universal_only (bs : Buckets)
    (patch : PatchDescriptor) (h : patch.compatiblePackages = []) :
    List.lookup "universal_patch" (processPatch bs patch) =
      (List.lookup "universal_patch" bs).map
        (fun l => l ++ [⟨patch.name, patch.description, "universal", "all"⟩]) ∧
    ∀ k, k ≠ "universal_patch" →
      List.lookup k (processPatch bs patch) = List.lookup k bs := by
  have hp : processPatch bs patch =
      appendTo bs "universal_patch"
        ⟨patch.name, patch.description, "universal", "all"⟩ := by
    unfold processPatch
    rw [h]
    simp
  constructor
  · rw [hp, lookup_appendTo]
    simp
  · intro k hk
    rw [hp, lookup_appendTo]
    have : ¬ "universal_patch" = k := fun he => hk he.symm
    cases List.lookup k bs <;> simp [this]

/-- Witness for C6: processing `universalOnlyPatch` over `twoBucketState`
extends only the universal bucket. -/
theorem no_compatible_packages_universal_only_witness :
    List.lookup "universal_patch"
        (processPatch twoBucketState universalOnlyPatch) =
      some [⟨"A", "d", "universal", "all"⟩] ∧
    List.lookup "_spotify" (processPatch twoBucketState universalOnlyPatch) =
      some [] := by
  have h := no_compatible_packages_universal_only twoBucketState
    universalOnlyPatch rfl
  refine ⟨?_, ?_⟩
  · rw [h.1]
    rfl
  · rw [h.2 "_spotify" (by decide)]
    rfl

/-- C7: compatible-package entries whose package id is not registered are
silently skipped: the fold over all entries equals the fold over the
registered entries only, with no error and no projection for the rest. -/
theorem unregistered_packages_skipped (patch : PatchDescriptor) (bs : Buckets)
    (cps : List CompatiblePackage) :
    cps.foldl (processCompatiblePackage patch) bs =
      (cps.filter
        (fun cp => (List.lookup cp.name revanced_app_ids).isSome)).foldl
        (processCompatiblePackage patch) bs := by
  induction cps generalizing bs with
  | nil => rfl
  | cons cp rest ih =>
    cases hl : List.lookup cp.name revanced_app_ids with
    | some t =>
      have hs : (List.lookup cp.name revanced_app_ids).isSome = true := by
        simp [hl]
      simp only [List.filter_cons, hs, if_true, List.foldl_cons]
      exact ih _
    | none =>
      have hskip : processCompatiblePackage patch bs cp = bs := by
        unfold processCompatiblePackage
        rw [hl]
      have hs : (List.lookup cp.name revanced_app_ids).isSome = false := by
        simp [hl]
      simp only [List.filter_cons, hs, Bool.false_eq_true, if_false,
        List.foldl_cons, hskip]
      exact ih _

/-- C5: the projected dict appended for a registered compatible package
has the patch's name, the package id as app, and version equal to the last
element of the entry's versions when non-empty, else "all". -/
theorem projected_patch_version (patch : PatchDescriptor) (bs : Buckets)
    (cp : CompatiblePackage) (app_tuple : String × String)
    (l : List ProjectedPatch)
    (hreg : List.lookup cp.name revanced_app_ids = some app_tuple)
    (hb : List.lookup app_tuple.2 bs = some l) :
    ∃ p : ProjectedPatch,
      List.lookup app_tuple.2 (processCompatiblePackage patch bs cp) =
        some (l ++ [p]) ∧
      p.name = patch.name ∧ p.description = patch.description ∧
      p.app = cp.name ∧
      (∀ hne : cp.versions ≠ [], p.version = cp.versions.getLast hne) ∧
      (cp.versions = [] → p.version = "all") := by
  refine ⟨⟨patch.name, patch.description, cp.name,
    match cp.versions.getLast? with
    | some v => v
    | none => "all"⟩, ?_, rfl, rfl, rfl, ?_, ?_⟩
  · unfold processCompatiblePackage
    simp only [hreg]
    rw [lookup_appendTo, hb]
    simp
  · intro hne
    simp [List.getLast?_eq_getLast cp.versions hne]
  · intro hnil
    rw [hnil]
    rfl

/-- Witness for C5: the spotify projection of `spotifyPatch` lands in the
empty spotify bucket with version "2.0", the last of ["1.0", "2.0"]. -/
theorem projected_patch_version_witness :
    ∃ p : ProjectedPatch,
      List.lookup "_spotify"
          (processCompatiblePackage spotifyPatch emptySpotifyState
            spotifyCompatible) =
        some ([] ++ [p]) ∧
      p.name = "B" ∧ p.description = "d2" ∧ p.app = "com.spotify.music" ∧
      (∀ hne : (["1.0", "2.0"] : List String) ≠ [],
        p.version = (["1.0", "2.0"] : List String).getLast hne) ∧
      ((["1.0", "2.0"] : List String) = [] → p.version = "all") :=
  projected_patch_version spotifyPatch emptySpotifyState spotifyCompatible
    ("spotify", "_spotify") [] (by decide) (by decide)

/-- C3: the parser-call trace of `include_exclude_patch` is exactly one
call per bucket patch — `exclude` of the normalized (lower-cased,
hyphen-for-space) name when that name is in the exclude requests, else
`include` — followed by an `include` of every raw include-request name
that is not `in` the universal-patch list of dicts. -/
theorem include_exclude_patch_trace (universal_patch : List ProjectedPatch)
    (exclude_request include_request : List String)
    (patches : List ProjectedPatch) :
    include_exclude_patch universal_patch exclude_request include_request
        patches =
      patches.map (fun patch =>
        if exclude_request.contains ((patch.name.toLower).replace " " "-") then
          EmitCall.excl ((patch.name.toLower).replace " " "-")
        else
          EmitCall.incl ((patch.name.toLower).replace " " "-")) ++
      (include_request.filter
        (fun n => !(pyStrInPatchList n universal_patch))).map
        EmitCall.incl := by
  unfold include_exclude_patch
  rw [foldl_append_eq_flatten, foldl_append_eq_flatten]
  rw [flatten_map_ite_keep]
  simp only [List.nil_append]
  rw [flatten_map_ite_singleton]
  simp only [ite_not_swap]

/-- C1 counterexample: on `equalVersionState` the recommended version
resolves to "1.0"; explicitly requesting exactly "1.0" (which is not
"latest") yields experimental = false, contradicting the claim that
equality forces experimental = true. -/
theorem version_policy_equal_counterexample :
    get equalVersionState "spotify" = Except.ok (equalVersionBucket, "1.0") ∧
    ("1.0" : String) ≠ "latest" ∧
    get_app_configs equalVersionState "spotify" (some "1.0") =
      Except.ok (equalVersionBucket, "1.0", false) := by
  refine ⟨by rfl, by decide, by rfl⟩

/-- C1 amended: when the explicitly requested version equals the resolved
recommended version and is neither the literal "latest" nor empty,
`get_app_configs` sets the experimental flag to false and the effective
version to the request. -/
theorem version_policy_equal_not_experimental (bs : Buckets) (app : String)
    (l : List ProjectedPatch) (r : String)
    (hget : get bs app = Except.ok (l, r))
    (hlatest : r ≠ "latest") (hempty : r ≠ "") :
    get_app_configs bs app (some r) = Except.ok (l, r, false) := by
  unfold get_app_configs
  simp only [hget]
  rw [if_neg hempty]
  have hlt : pyLt r r = false := pyCharListLt_irrefl r.data
  have hbeq : (r == "latest") = false := by
    simp [hlatest]
  simp [hlt, hbeq]

/-- Witness for C1 amended: requesting "1.0" when "1.0" is recommended. -/
theorem version_policy_equal_not_experimental_witness :
    get_app_configs equalVersionState "spotify" (some "1.0") =
      Except.ok (equalVersionBucket, "1.0", false) :=
  version_policy_equal_not_experimental equalVersionState "spotify"
    equalVersionBucket "1.0" (by rfl) (by decide) (by decide)

/-- C2 counterexample: on a file system where the file exists but is not
valid JSON, `load_patches` fails with the uncaught `json.JSONDecodeError`,
which is not the `PatchesJsonLoadFailed` error kind. -/
theorem load_patches_malformed_counterexample :
    load_patches malformedFs "patches.json" =
      Except.error (PyError.JSONDecodeError "patches.json") ∧
    isPatchesJsonLoadFailed (PyError.JSONDecodeError "patches.json") =
      false :=
  ⟨rfl, rfl⟩

/-- C2 amended: `load_patches` fails with `PatchesJsonLoadFailed` carrying
the path exactly when the file is missing; malformed contents instead
surface as the uncaught `json.JSONDecodeError`; parsed contents are
returned unchanged. -/
theorem load_patches_error_cases
    (fs : String → FileResult (List PatchDescriptor)) (file_name : String)
    (v : List PatchDescriptor) :
    (fs file_name = .missing →
      load_patches fs file_name =
        Except.error
          (PyError.PatchesJsonLoadFailed "File not found" file_name)) ∧
    (fs file_name = .malformed →
      load_patches fs file_name =
        Except.error (PyError.JSONDecodeError file_name) ∧
      isPatchesJsonLoadFailed (PyError.JSONDecodeError file_name) = false) ∧
    (fs file_name = .parsed v →
      load_patches fs file_name = Except.ok v) := by
  unfold load_patches
  refine ⟨fun h => by rw [h], fun h => ⟨by rw [h], rfl⟩, fun h => by rw [h]⟩

/-- Witness for C2 amended: the missing-file case at a concrete path. -/
theorem load_patches_error_cases_witness :
    load_patches missingFs "patches.json" =
      Except.error
        (PyError.PatchesJsonLoadFailed "File not found" "patches.json") :=
  (load_patches_error_cases missingFs "patches.json" []).1 rfl

end RevancedPatches
